import Mathlib

/-!
Verification of the VocalCoach analysis core (`src/app.py`).

The core pipeline is embedded shallowly:
* pitch values are rationals (`ℚ`);
* a raw pitch frame from the estimator is either a finite value or a
  non-finite sentinel (`NaN`/`±inf`), mirroring what `np.isfinite` tests;
* the pitch estimator (`librosa.yin`) is an injected capability, an
  abstract function from (sample buffer, sample rate) to a frame sequence;
* fallible operations return `Except`.
-/

namespace VocalCoach

/-- Embedding of the `VoiceType` enum of `app.py` (lines 29-37). -/
inductive VoiceType
  | SOPRANO
  | MEZZO_SOPRANO
  | CONTRALTO
  | COUNTER_TENOR
  | TENOR
  | BARITONE
  | BASS
  | UNKNOWN
deriving DecidableEq, Repr

/-- The `.value` display string of each `VoiceType` member, exactly as in
the source enum (lines 30-37 of `app.py`). -/
def VoiceType.value : VoiceType → String
  | .SOPRANO => "Soprano"
  | .MEZZO_SOPRANO => "Mezzo-soprano"
  | .CONTRALTO => "Kontralto"
  | .COUNTER_TENOR => "Tiz Erkek (Countertenor)"
  | .TENOR => "Tenor"
  | .BARITONE => "Bariton"
  | .BASS => "Bas"
  | .UNKNOWN => "Belirsiz"

/-- A raw per-window pitch estimate as produced by `librosa.yin`: a float
that is either finite or one of the non-finite sentinels (NaN, ±inf). -/
inductive PitchFrame
  | nonfinite
  | finite (q : ℚ)
deriving DecidableEq, Repr

/-- Embedding of `np.isfinite` on a frame. -/
def PitchFrame.isFiniteF : PitchFrame → Bool
  | .nonfinite => false
  | .finite _ => true

/-- The numeric value of a frame; only ever used on frames that passed the
finiteness filter. -/
def PitchFrame.val : PitchFrame → ℚ
  | .nonfinite => 0
  | .finite q => q

/-- Embedding of lines 115-116 of `app.py`:
`pitch = pitch[np.isfinite(pitch)]; pitch = pitch[pitch > 0]`. -/
def voicedFilter (l : List PitchFrame) : List ℚ :=
  ((l.filter PitchFrame.isFiniteF).map PitchFrame.val).filter (fun q => decide (0 < q))

/-- Embedding of `np.median`: sort the values, take the middle element for
odd length, the mean of the two central elements for even length. -/
def median (l : List ℚ) : ℚ :=
  let s := l.insertionSort (· ≤ ·)
  let n := s.length
  if n % 2 = 1 then s.getD (n / 2) 0
  else (s.getD (n / 2 - 1) 0 + s.getD (n / 2) 0) / 2

/-- The error cases raised by `analyze_pitch` (`ValueError`s in the source,
named as in the spec taxonomy §7). -/
inductive PitchError
  | insufficientAudio
  | noPitchDetected
deriving DecidableEq, Repr

instance {ε α : Type} [DecidableEq ε] [DecidableEq α] :
    DecidableEq (Except ε α) := fun x y =>
  match x, y with
  | .ok a, .ok b =>
      if h : a = b then isTrue (by rw [h])
      else isFalse (by intro hh; cases hh; exact h rfl)
  | .error a, .error b =>
      if h : a = b then isTrue (by rw [h])
      else isFalse (by intro hh; cases hh; exact h rfl)
  | .ok _, .error _ => isFalse (by intro hh; cases hh)
  | .error _, .ok _ => isFalse (by intro hh; cases hh)

/-- Embedding of `analyze_pitch` (`app.py` lines 110-121).  The pitch
estimator `librosa.yin` is passed in as an abstract function `yinAlg` from
(sample buffer, sample rate) to the raw frame sequence; `y` is the sample
buffer and `sr` the sample rate. -/
def analyze_pitch (yinAlg : List ℚ → ℕ → List PitchFrame) (y : List ℚ) (sr : ℕ) :
    Except PitchError (ℚ × List ℚ) :=
  if (y.length : ℚ) / (sr : ℚ) < 1 / 2 then .error .insufficientAudio
  else
    let pitch := voicedFilter (yinAlg y sr)
    if pitch = [] then .error .noPitchDetected
    else .ok (median pitch, pitch)

/-- Embedding of Python `str.lower()` on the gender strings: lower-case
every character (character-wise ASCII lowering, which agrees with Python
on the gender alphabet in play). -/
def lowerStr (s : String) : String := String.mk (s.data.map Char.toLower)

/-- Embedding of `classify_voice` (`app.py` lines 123-148). -/
def classify_voice (avg_pitch : ℚ) (gender : String) : VoiceType :=
  let g := lowerStr gender
  if g = "female" then
    if 450 ≤ avg_pitch ∧ avg_pitch ≤ 1100 then .SOPRANO
    else if 350 ≤ avg_pitch ∧ avg_pitch < 450 then .MEZZO_SOPRANO
    else if 165 ≤ avg_pitch ∧ avg_pitch < 350 then .CONTRALTO
    else .UNKNOWN
  else if g = "male" then
    if 450 ≤ avg_pitch ∧ avg_pitch ≤ 700 then .COUNTER_TENOR
    else if 165 ≤ avg_pitch ∧ avg_pitch < 255 then .TENOR
    else if 110 ≤ avg_pitch ∧ avg_pitch < 165 then .BARITONE
    else if 80 ≤ avg_pitch ∧ avg_pitch < 110 then .BASS
    else .UNKNOWN
  else .UNKNOWN

/-- Floor of a rational, computably (`Int.fdiv` rounds toward `-∞`). -/
def ratFloor (q : ℚ) : ℤ := Int.fdiv q.num q.den

/-- Round-half-to-even to an integer, the tie-breaking rule of Python 3
`round`. -/
def roundHalfEven (q : ℚ) : ℤ :=
  if q - ratFloor q < 1 / 2 then ratFloor q
  else if 1 / 2 < q - ratFloor q then ratFloor q + 1
  else if ratFloor q % 2 = 0 then ratFloor q else ratFloor q + 1

/-- Embedding of Python `round(x, 2)`: round to 2 decimal places with
half-to-even tie-breaking. -/
def round2 (q : ℚ) : ℚ := (roundHalfEven (q * 100) : ℚ) / 100

/-- The successfully composed analysis payload: the fields of the JSON
response built at `app.py` lines 182-196 that the core computes (the
wall-clock `processing_time` string is outside the pure core). -/
structure AnalysisOk where
  voice_type : VoiceType
  average_pitch : ℚ
  pitch_series : List ℚ
deriving DecidableEq, Repr

/-- Embedding of the core pipeline of the `analyze` endpoint
(`app.py` lines 178-196): run `analyze_pitch`, classify the unrounded
median, and compose the result with the median rounded to 2 decimals and
the full voiced pitch series. -/
def analyze (yinAlg : List ℚ → ℕ → List PitchFrame) (y : List ℚ) (sr : ℕ)
    (gender : String) : Except PitchError AnalysisOk :=
  match analyze_pitch yinAlg y sr with
  | .error e => .error e
  | .ok (avg_pitch, pitch_series) =>
      .ok { voice_type := classify_voice avg_pitch gender
            average_pitch := round2 avg_pitch
            pitch_series := pitch_series }

/-!
Spec-side definitions.  These follow the words of `spec.md` (the band
table of §4.3 and the median definition of §4.2 / the glossary) and are
compared against the source-derived definitions above.
-/

/-- A band row of the spec table §4.3: lower bound, upper bound, whether
the upper bound is inclusive, and the category (spec §9 suggests exactly
this `(lower, upper-inclusive-flag, category)` shape). -/
abbrev Band := ℚ × ℚ × Bool × VoiceType

/-- Spec §4.3: bands are evaluated top-to-bottom, first match wins, no
match yields Unknown. -/
def firstMatch (p : ℚ) : List Band → VoiceType
  | [] => .UNKNOWN
  | (lo, hi, inc, c) :: rest =>
      if lo ≤ p ∧ (if inc then p ≤ hi else p < hi) then c
      else firstMatch p rest

/-- The female rows of the spec band table §4.3. -/
def femaleBands : List Band :=
  [(450, 1100, true, .SOPRANO), (350, 450, false, .MEZZO_SOPRANO),
   (165, 350, false, .CONTRALTO)]

/-- The male rows of the spec band table §4.3. -/
def maleBands : List Band :=
  [(450, 700, true, .COUNTER_TENOR), (165, 255, false, .TENOR),
   (110, 165, false, .BARITONE), (80, 110, false, .BASS)]

/-- The classifier as the spec states it: dispatch on the
case-insensitive gender to the ordered band table, any other gender is
Unknown. -/
def specClassify (p : ℚ) (g : String) : VoiceType :=
  if lowerStr g = "female" then firstMatch p femaleBands
  else if lowerStr g = "male" then firstMatch p maleBands
  else .UNKNOWN

/-- The median as the spec words it (§4.2, glossary): the middle value of
"the sorted sequence" — here the canonical sorted enumeration of the
multiset of values — for odd count, the average of the two central values
for even count. -/
def medianSpec (l : List ℚ) : ℚ :=
  let s := Multiset.sort (· ≤ ·) (l : Multiset ℚ)
  let n := s.length
  if n % 2 = 1 then s.getD (n / 2) 0
  else (s.getD (n / 2 - 1) 0 + s.getD (n / 2) 0) / 2

/-- Spec §3 VoicedPitchSeries, as a single pass: keep exactly the finite,
strictly positive frame values, in order. -/
def voicedVal : PitchFrame → Option ℚ
  | .nonfinite => none
  | .finite q => if 0 < q then some q else none

/-!  Helper lemmas shared by the claim theorems. -/

lemma voicedFilter_eq_filterMap (l : List PitchFrame) :
    voicedFilter l = l.filterMap voicedVal := by
  induction l with
  | nil => rfl
  | cons f t ih =>
      cases f with
      | nonfinite =>
          simp [voicedFilter, PitchFrame.isFiniteF, voicedVal, List.filterMap_cons] at ih ⊢
          exact ih
      | finite q =>
          simp [voicedFilter, PitchFrame.isFiniteF, PitchFrame.val, voicedVal,
            List.filterMap_cons, List.filter_cons] at ih ⊢
          by_cases h : 0 < q <;> simp [h, ih]

lemma median_eq_medianSpec (l : List ℚ) : median l = medianSpec l := by
  have hsort : l.insertionSort (· ≤ ·) =
      Multiset.sort (· ≤ ·) (l : Multiset ℚ) := by
    apply List.eq_of_perm_of_sorted (r := (· ≤ · : ℚ → ℚ → Prop))
    · exact (List.perm_insertionSort _ l).trans
        ((Multiset.coe_eq_coe.mp (Multiset.sort_eq (· ≤ ·) (l : Multiset ℚ))).symm)
    · exact List.sorted_insertionSort _ l
    · exact Multiset.sort_sorted _ _
  simp only [median, medianSpec, hsort]

lemma analyze_pitch_of_short {yinAlg : List ℚ → ℕ → List PitchFrame}
    {y : List ℚ} {sr : ℕ} (h : (y.length : ℚ) / (sr : ℚ) < 1 / 2) :
    analyze_pitch yinAlg y sr = .error .insufficientAudio := by
  simp only [analyze_pitch]
  rw [if_pos h]

lemma analyze_pitch_of_empty {yinAlg : List ℚ → ℕ → List PitchFrame}
    {y : List ℚ} {sr : ℕ} (h : ¬ (y.length : ℚ) / (sr : ℚ) < 1 / 2)
    (hv : voicedFilter (yinAlg y sr) = []) :
    analyze_pitch yinAlg y sr = .error .noPitchDetected := by
  simp only [analyze_pitch]
  rw [if_neg h, if_pos hv]

lemma analyze_pitch_of_voiced {yinAlg : List ℚ → ℕ → List PitchFrame}
    {y : List ℚ} {sr : ℕ} (h : ¬ (y.length : ℚ) / (sr : ℚ) < 1 / 2)
    (hv : voicedFilter (yinAlg y sr) ≠ []) :
    analyze_pitch yinAlg y sr =
      .ok (median (voicedFilter (yinAlg y sr)), voicedFilter (yinAlg y sr)) := by
  simp only [analyze_pitch]
  rw [if_neg h, if_neg hv]

lemma classify_voice_eq_specClassify (p : ℚ) (g : String) :
    classify_voice p g = specClassify p g := by
  simp only [classify_voice, specClassify, femaleBands, maleBands, firstMatch]
  split_ifs <;> simp_all

/-!  Claim theorems. -/

/-- C1: for every pitch `p` and gender string `g`, the classifier returns
the category given by the fixed ordered band table evaluated top-to-bottom
with first match winning (female: `[450,1100]` Soprano, `[350,450)`
Mezzo-soprano, `[165,350)` Contralto, else Unknown; male: `[450,700]`
Counter-tenor, `[165,255)` Tenor, `[110,165)` Baritone, `[80,110)` Bass,
else Unknown); in particular `450` with `"female"` gives Soprano and `300`
with `"male"` gives Unknown. -/
theorem C1_classifier_matches_band_table :
    (∀ p : ℚ, ∀ g : String, classify_voice p g = specClassify p g) ∧
    classify_voice 450 "female" = VoiceType.SOPRANO ∧
    classify_voice 300 "male" = VoiceType.UNKNOWN :=
  ⟨classify_voice_eq_specClassify, by decide, by decide⟩

unseal Rat.add Rat.sub Rat.mul Rat.inv in
/-- C2: whenever the pitch analysis succeeds, the representative pitch it
returns is the statistical median (middle of the sorted values for odd
length, mean of the two central sorted values for even length) of the
voiced series it returns; in particular the series `[100, 200, 300, 400]`
yields `250`. -/
theorem C2_representative_pitch_is_median :
    (∀ yinAlg y sr m s, analyze_pitch yinAlg y sr = .ok (m, s) →
      s ≠ [] ∧ m = medianSpec s) ∧
    median [100, 200, 300, 400] = 250 := by
  constructor
  · intro yinAlg y sr m s h
    unfold analyze_pitch at h
    split_ifs at h
    by_cases hv : voicedFilter (yinAlg y sr) = [] <;> simp [hv] at h
    obtain ⟨hm, hs⟩ := h
    subst hs
    exact ⟨hv, hm ▸ (median_eq_medianSpec _).symm ▸ rfl⟩
  · decide

unseal Rat.add Rat.sub Rat.mul Rat.inv in
/-- Witness for C2 at a concrete input: a one-second buffer whose frames
are 100, 200, 300, 400 Hz analyzes to the even-length median 250 of that
series. -/
theorem C2_representative_pitch_is_median_witness :
    ([100, 200, 300, 400] : List ℚ) ≠ [] ∧
    (250 : ℚ) = medianSpec [100, 200, 300, 400] :=
  C2_representative_pitch_is_median.1
    (fun _ _ => [.finite 100, .finite 200, .finite 300, .finite 400])
    [0] 2 250 [100, 200, 300, 400] (by decide)

/-- C3: the pitch analysis fails with `InsufficientAudio` for every buffer
whose duration `len(y)/sr` is below `0.5` seconds, regardless of content
(i.e. of whatever the estimator would produce), and never raises this
error when the duration is at least `0.5` seconds. -/
theorem C3_insufficient_audio_iff_short :
    ∀ yinAlg (y : List ℚ) (sr : ℕ), 0 < sr →
      ((y.length : ℚ) / (sr : ℚ) < 1 / 2 →
        analyze_pitch yinAlg y sr = .error .insufficientAudio) ∧
      (¬ (y.length : ℚ) / (sr : ℚ) < 1 / 2 →
        analyze_pitch yinAlg y sr ≠ .error .insufficientAudio) := by
  intro yinAlg y sr _
  constructor
  · intro h
    exact analyze_pitch_of_short h
  · intro h
    by_cases hv : voicedFilter (yinAlg y sr) = []
    · rw [analyze_pitch_of_empty h hv]
      simp
    · rw [analyze_pitch_of_voiced h hv]
      simp

unseal Rat.add Rat.sub Rat.mul Rat.inv in
/-- Witness for C3 at a concrete input: a 0-sample buffer at rate 1 is
shorter than half a second and is rejected as insufficient audio. -/
theorem C3_insufficient_audio_iff_short_witness :
    analyze_pitch (fun _ _ => []) ([] : List ℚ) 1 = .error .insufficientAudio :=
  (C3_insufficient_audio_iff_short (fun _ _ => []) [] 1 (by decide)).1 (by decide)

/-- C4: for every buffer of sufficient duration, the pitch analysis fails
with `NoPitchDetected` exactly when the filtered voiced series is empty,
and succeeds — returning the median together with the series — whenever at
least one voiced frame survives the filtering. -/
theorem C4_no_pitch_iff_empty_series :
    ∀ yinAlg (y : List ℚ) (sr : ℕ), ¬ (y.length : ℚ) / (sr : ℚ) < 1 / 2 →
      (analyze_pitch yinAlg y sr = .error .noPitchDetected ↔
        voicedFilter (yinAlg y sr) = []) ∧
      (voicedFilter (yinAlg y sr) ≠ [] →
        analyze_pitch yinAlg y sr =
          .ok (median (voicedFilter (yinAlg y sr)), voicedFilter (yinAlg y sr))) := by
  intro yinAlg y sr h
  by_cases hv : voicedFilter (yinAlg y sr) = []
  · rw [analyze_pitch_of_empty h hv]
    simp [hv]
  · rw [analyze_pitch_of_voiced h hv]
    simp [hv]

unseal Rat.add Rat.sub Rat.mul Rat.inv in
/-- Witness for C4 at a concrete input: a 2-sample buffer at rate 1 lasts
2 seconds; when every estimated frame is the non-finite (unvoiced)
sentinel — as for silence — the voiced series is empty and the analysis
fails with `NoPitchDetected`. -/
theorem C4_no_pitch_iff_empty_series_witness :
    analyze_pitch (fun _ _ => [.nonfinite, .nonfinite]) [0, 0] 1 =
      .error .noPitchDetected :=
  (C4_no_pitch_iff_empty_series (fun _ _ => [.nonfinite, .nonfinite]) [0, 0] 1
    (by decide)).1.mpr (by decide)

/-- C5: the classifier depends on the gender string only through its
case-insensitive (lower-cased) form, any gender whose lower-casing is
neither `"female"` nor `"male"` deterministically yields Unknown (the
classifier is a total function, it never fails), and in particular pitch
`200` with gender `"OTHER_STRING"` yields Unknown. -/
theorem C5_gender_case_insensitive_and_total :
    (∀ p : ℚ, ∀ g₁ g₂ : String, lowerStr g₁ = lowerStr g₂ →
      classify_voice p g₁ = classify_voice p g₂) ∧
    (∀ p : ℚ, ∀ g : String, lowerStr g ≠ "female" → lowerStr g ≠ "male" →
      classify_voice p g = VoiceType.UNKNOWN) ∧
    classify_voice 200 "OTHER_STRING" = VoiceType.UNKNOWN := by
  refine ⟨?_, ?_, by decide⟩
  · intro p g₁ g₂ h
    simp only [classify_voice, h]
  · intro p g h₁ h₂
    simp [classify_voice, h₁, h₂]

/-- Witness for C5 at concrete inputs: `"FeMale"` classifies as
`"female"` does, and a gender that lowers to neither keyword yields
Unknown. -/
theorem C5_gender_case_insensitive_and_total_witness :
    classify_voice 500 "FeMale" = classify_voice 500 "female" ∧
    classify_voice 311 "diğer" = VoiceType.UNKNOWN :=
  ⟨C5_gender_case_insensitive_and_total.1 500 "FeMale" "female" (by decide),
   C5_gender_case_insensitive_and_total.2.1 311 "diğer" (by decide) (by decide)⟩

lemma voiced_filterMap_sublist (l : List PitchFrame) :
    List.Sublist ((l.filterMap voicedVal).map PitchFrame.finite) l := by
  induction l with
  | nil => simp
  | cons f t ih =>
      cases f with
      | nonfinite =>
          simpa [voicedVal, List.filterMap_cons] using
            ih.cons PitchFrame.nonfinite
      | finite q =>
          by_cases h : 0 < q
          · simpa [voicedVal, List.filterMap_cons, h] using
              ih.cons₂ (PitchFrame.finite q)
          · simpa [voicedVal, List.filterMap_cons, h] using
              ih.cons (PitchFrame.finite q)

/-- C6: the voiced pitch series is exactly the subsequence of estimator
frames that are finite and strictly positive: it equals the one-pass
filter-map keeping finite positive values, re-wrapping it as frames gives
an order-preserving sublist of the raw frame sequence, and every element
of it is strictly positive. -/
theorem C6_voiced_series_invariants :
    ∀ l : List PitchFrame,
      voicedFilter l = l.filterMap voicedVal ∧
      List.Sublist ((voicedFilter l).map PitchFrame.finite) l ∧
      (∀ q ∈ voicedFilter l, 0 < q) := by
  intro l
  refine ⟨voicedFilter_eq_filterMap l,
    (voicedFilter_eq_filterMap l).symm ▸ voiced_filterMap_sublist l, ?_⟩
  intro q hq
  have := (List.mem_filter.mp hq).2
  simpa using this

/-- Witness for C6 at a concrete input: of the frames
`[finite 2, nonfinite, finite (-1)]` exactly the value `2` survives, and
it is strictly positive. -/
theorem C6_voiced_series_invariants_witness :
    voicedFilter [.finite 2, .nonfinite, .finite (-1)] = [2] ∧ (0 : ℚ) < 2 :=
  ⟨by decide,
   (C6_voiced_series_invariants [.finite 2, .nonfinite, .finite (-1)]).2.2 2 (by decide)⟩

/-- C7: for every successful analysis the composed result carries the
representative pitch rounded to 2 decimal places, the chosen voice
category, and the very voiced series (same list, same order) from which
the median was computed; result composition adds no failure mode of its
own — the composed pipeline fails exactly with the upstream failure. -/
theorem C7_result_composition :
    (∀ yinAlg y sr gender m s, analyze_pitch yinAlg y sr = .ok (m, s) →
      analyze yinAlg y sr gender =
        .ok { voice_type := classify_voice m gender
              average_pitch := round2 m
              pitch_series := s }) ∧
    (∀ yinAlg y sr gender e, analyze_pitch yinAlg y sr = .error e →
      analyze yinAlg y sr gender = .error e) := by
  constructor
  · intro yinAlg y sr gender m s h
    simp only [analyze, h]
  · intro yinAlg y sr gender e h
    simp only [analyze, h]

unseal Rat.add Rat.sub Rat.mul Rat.inv in
/-- Witness for C7 at a concrete input: a 1-sample buffer at rate 2 (a
half second) with a single voiced frame at 100 Hz composes into the
Unknown category (female bands have no row below 165), pitch 100, and the
one-element series. -/
theorem C7_result_composition_witness :
    analyze (fun _ _ => [.finite 100]) [0] 2 "female" =
      .ok { voice_type := VoiceType.UNKNOWN, average_pitch := 100,
            pitch_series := [100] } := by
  have h := C7_result_composition.1 (fun _ _ => [.finite 100]) [0] 2 "female"
    100 [100] (by decide)
  rw [h]
  decide

/-- C8 counterexample: the claim says the label string exposed to the
caller is always one of {Soprano, Mezzo-soprano, Contralto, Counter-tenor,
Tenor, Baritone, Bass, Unknown}; but at pitch 300 with gender "male" the
code exposes the label "Belirsiz", which is not in that set. -/
theorem C8_label_set_counterexample :
    (classify_voice 300 "male").value = "Belirsiz" ∧
    "Belirsiz" ∉ ["Soprano", "Mezzo-soprano", "Contralto", "Counter-tenor",
                  "Tenor", "Baritone", "Bass", "Unknown"] := by
  constructor
  · decide
  · decide

/-- C8 (amended): the label exposed for every classification outcome is a
member of the fixed closed set of the eight enum display strings of the
source, {"Soprano", "Mezzo-soprano", "Kontralto",
"Tiz Erkek (Countertenor)", "Tenor", "Bariton", "Bas", "Belirsiz"}. -/
theorem C8_labels_closed_set :
    ∀ (p : ℚ) (g : String), (classify_voice p g).value ∈
      ["Soprano", "Mezzo-soprano", "Kontralto", "Tiz Erkek (Countertenor)",
       "Tenor", "Bariton", "Bas", "Belirsiz"] := by
  intro p g
  cases h : classify_voice p g <;> simp [VoiceType.value]

/-- C9: the core pipeline is deterministic — for one and the same
(estimator, sample buffer, sample rate, gender) input, any two runs of the
analysis produce the same outcome: same category, same representative
pitch, same pitch series (the model carries no timing, which is the one
component allowed to differ). -/
theorem C9_pipeline_deterministic :
    ∀ (yinAlg : List ℚ → ℕ → List PitchFrame) (y : List ℚ) (sr : ℕ)
      (gender : String) (r₁ r₂ : Except PitchError AnalysisOk),
      analyze yinAlg y sr gender = r₁ → analyze yinAlg y sr gender = r₂ →
      r₁ = r₂ := by
  intro _ _ _ _ _ _ h₁ h₂
  rw [← h₁, ← h₂]

unseal Rat.add Rat.sub Rat.mul Rat.inv in
/-- Witness for C9 at a concrete input: two runs on the same 1-sample
buffer with a 200 Hz voiced frame agree. -/
theorem C9_pipeline_deterministic_witness :
    (Except.ok { voice_type := VoiceType.UNKNOWN, average_pitch := 200,
                 pitch_series := [200] } : Except PitchError AnalysisOk) =
      .ok { voice_type := VoiceType.UNKNOWN, average_pitch := 200,
            pitch_series := [200] } :=
  C9_pipeline_deterministic (fun _ _ => [.finite 200]) [0] 2 "unspecified" _ _
    (by decide) (by decide)

unseal Rat.add Rat.sub Rat.mul Rat.inv in
/-- C10: the voice category of a successful analysis is computed from the
unrounded median while the reported pitch is the rounded median; at the
concrete median `449.996` with gender `"female"` the reported pitch is
`450` — inside the Soprano band — while the returned category is
Mezzo-soprano, the one determined by the unrounded value. -/
theorem C10_category_from_unrounded_median :
    (∀ yinAlg y sr gender m s r, analyze_pitch yinAlg y sr = .ok (m, s) →
      analyze yinAlg y sr gender = .ok r →
      r.voice_type = classify_voice m gender ∧ r.average_pitch = round2 m) ∧
    (analyze (fun _ _ => [.finite (449996 / 1000)]) [0] 2 "female" =
        .ok { voice_type := VoiceType.MEZZO_SOPRANO, average_pitch := 450,
              pitch_series := [449996 / 1000] } ∧
      classify_voice 450 "female" = VoiceType.SOPRANO) := by
  constructor
  · intro yinAlg y sr gender m s r h h2
    simp only [analyze, h] at h2
    cases h2
    exact ⟨rfl, rfl⟩
  · exact ⟨by decide, by decide⟩

unseal Rat.add Rat.sub Rat.mul Rat.inv in
/-- Witness for C10 at a concrete input: with the single-frame series
`[449.996]` and gender `"female"`, the composed result's category is the
classification of the unrounded median and its reported pitch is the
rounded median. -/
theorem C10_category_from_unrounded_median_witness :
    (AnalysisOk.mk VoiceType.MEZZO_SOPRANO 450 [449996 / 1000]).voice_type =
      classify_voice (449996 / 1000) "female" ∧
    (AnalysisOk.mk VoiceType.MEZZO_SOPRANO 450 [449996 / 1000]).average_pitch =
      round2 (449996 / 1000) :=
  C10_category_from_unrounded_median.1
    (fun _ _ => [.finite (449996 / 1000)]) [0] 2 "female"
    (449996 / 1000) [449996 / 1000]
    (AnalysisOk.mk VoiceType.MEZZO_SOPRANO 450 [449996 / 1000])
    (by decide) (by decide)

end VocalCoach
